import Mathlib

/-!
Verification of the flight-booking record store (`src/index.ts`).

The store is an ordered map from booking id (string) to booking record,
embedded here as an association list strictly sorted by key.  The external
collaborators (the clock `ic.time()` and the uuid generator) are passed as
explicit arguments / modelled from their documented behaviour.  `nat64`
fields carry no arithmetic in the source, only comparisons, so they are
embedded as `Nat`.  JavaScript `number` arguments of the pagination query
are embedded as `Int` (the source only ever does exact small-integer
arithmetic on them), and `Array.prototype.slice` is embedded with its
full ECMAScript semantics, negative-index wraparound included.
-/

set_option autoImplicit false

/-- The stored record type (`FlightBooking` in the source). -/
structure FlightBooking where
  id : String
  airline : String
  departureAirport : String
  arrivalAirport : String
  departureTime : Nat
  arrivalTime : Nat
  createdAt : Nat
  updatedAt : Option Nat
deriving Repr, DecidableEq

/-- The create/update payload (`FlightBookingPayload` in the source). -/
structure FlightBookingPayload where
  airline : String
  departureAirport : String
  arrivalAirport : String
  departureTime : Nat
  arrivalTime : Nat
deriving Repr, DecidableEq

/-- The `StableBTreeMap<string, FlightBooking>` backing store: an
association list kept strictly sorted by key. -/
abbrev Store : Type := List (String × FlightBooking)

/-- Point lookup (`flightBookingStorage.get(id)`). -/
def Store.get : Store → String → Option FlightBooking
  | [], _ => none
  | (k, v) :: rest, i => if i = k then some v else Store.get rest i

/-- Point insert/overwrite (`flightBookingStorage.insert(key, value)`),
keeping the list sorted by key. -/
def Store.insert : Store → String → FlightBooking → Store
  | [], k, v => [(k, v)]
  | (k0, v0) :: rest, k, v =>
    if k < k0 then (k, v) :: (k0, v0) :: rest
    else if k = k0 then (k, v) :: rest
    else (k0, v0) :: Store.insert rest k v

/-- Point remove (`flightBookingStorage.remove(id)`): the removed value,
if any, together with the remaining store. -/
def Store.remove : Store → String → Option FlightBooking × Store
  | [], _ => (none, [])
  | (k, v) :: rest, i =>
    if i = k then (some v, rest)
    else
      let r := Store.remove rest i
      (r.1, (k, v) :: r.2)

/-- Full-value iteration in key order (`flightBookingStorage.values()`). -/
def Store.values (st : Store) : List FlightBooking :=
  st.map Prod.snd

/-- Map size (`flightBookingStorage.len()`). -/
def Store.len (st : Store) : Nat :=
  st.length

/-- The `Result<T, string>` type of the source. -/
inductive Result (α : Type) where
  | Ok : α → Result α
  | Err : String → Result α
deriving Repr, DecidableEq

/-- JavaScript falsiness of the five payload fields, as tested by
`!payload.airline || ... || !payload.arrivalTime` in the source: a string
is falsy exactly when empty, a bigint exactly when zero. -/
def invalidPayload (p : FlightBookingPayload) : Bool :=
  p.airline = "" || p.departureAirport = "" || p.arrivalAirport = "" ||
    p.departureTime = 0 || p.arrivalTime = 0

/-- Hex digit character (lowercase), for the uuid rendering. -/
def hexDigit (n : Nat) : Char :=
  if n < 10 then Char.ofNat (48 + n) else Char.ofNat (87 + n)

/-- Two-digit lowercase hex rendering of a byte. -/
def byteHex (n : Nat) : String :=
  String.mk [hexDigit (n / 16 % 16), hexDigit (n % 16)]

/-- Modelled from the spec: the id generator is the external `uuid`
package (`v4 as uuidv4`), whose code is not under src/; the spec describes
it as producing a fresh, statistically unique 128-bit random identifier.
RFC 4122 v4 over 16 random bytes: force the version nibble of byte 6 to
`0x4` and the two variant bits of byte 8 to `0b10`, then render as the
standard 36-character hyphenated lowercase hex string. -/
def uuidv4 (bytes : List Nat) : String :=
  let b : Nat → Nat := fun i => bytes.getD i 0 % 256
  let b6 : Nat := b 6 % 16 + 64
  let b8 : Nat := b 8 % 64 + 128
  byteHex (b 0) ++ byteHex (b 1) ++ byteHex (b 2) ++ byteHex (b 3) ++ "-" ++
    byteHex (b 4) ++ byteHex (b 5) ++ "-" ++ byteHex b6 ++ byteHex (b 7) ++ "-" ++
    byteHex b8 ++ byteHex (b 9) ++ "-" ++ byteHex (b 10) ++ byteHex (b 11) ++
    byteHex (b 12) ++ byteHex (b 13) ++ byteHex (b 14) ++ byteHex (b 15)

/-- `getFlightBookings()`: all records in key order. -/
def getFlightBookings (st : Store) : Result (List FlightBooking) :=
  Result.Ok (Store.values st)

/-- `getFlightBooking(id)`. -/
def getFlightBooking (i : String) (st : Store) : Result FlightBooking :=
  match Store.get st i with
  | some fb => Result.Ok fb
  | none => Result.Err ("A flight booking with id=" ++ i ++ " not found")

/-- `addFlightBooking(payload)`.  The freshly generated id (`uuidv4()`)
and the store-observed time (`ic.time()`) are explicit arguments; the
result value is paired with the post-state of the map. -/
def addFlightBooking (newId : String) (now : Nat) (payload : FlightBookingPayload)
    (st : Store) : Result FlightBooking × Store :=
  if invalidPayload payload then
    (Result.Err "Invalid input. Please provide all required fields.", st)
  else if payload.arrivalTime ≤ payload.departureTime then
    (Result.Err "Arrival time must be after the departure time.", st)
  else
    let fb : FlightBooking :=
      { id := newId
        airline := payload.airline
        departureAirport := payload.departureAirport
        arrivalAirport := payload.arrivalAirport
        departureTime := payload.departureTime
        arrivalTime := payload.arrivalTime
        createdAt := now
        updatedAt := none }
    (Result.Ok fb, Store.insert st fb.id fb)

/-- `updateFlightBooking(id, payload)`.  The store-observed time
(`ic.time()`) is an explicit argument.  As in the source, the merged
record keeps the `id` and `createdAt` of the looked-up record, takes the
five payload fields, sets `updatedAt`, and is inserted under the own `id`
field of the looked-up record. -/
def updateFlightBooking (now : Nat) (i : String) (payload : FlightBookingPayload)
    (st : Store) : Result FlightBooking × Store :=
  if invalidPayload payload then
    (Result.Err "Invalid input. Please provide all required fields.", st)
  else if payload.arrivalTime ≤ payload.departureTime then
    (Result.Err "Arrival time must be after the departure time.", st)
  else
    match Store.get st i with
    | some fb =>
      let updated : FlightBooking :=
        { id := fb.id
          airline := payload.airline
          departureAirport := payload.departureAirport
          arrivalAirport := payload.arrivalAirport
          departureTime := payload.departureTime
          arrivalTime := payload.arrivalTime
          createdAt := fb.createdAt
          updatedAt := some now }
      (Result.Ok updated, Store.insert st fb.id updated)
    | none =>
      (Result.Err ("Couldn\x27t update a flight booking with id=" ++ i ++
        ". Flight booking not found"), st)

/-- `deleteFlightBooking(id)`. -/
def deleteFlightBooking (i : String) (st : Store) : Result FlightBooking × Store :=
  let r := Store.remove st i
  match r.1 with
  | some fb => (Result.Ok fb, r.2)
  | none =>
    (Result.Err ("Couldn\x27t delete a flight booking with id=" ++ i ++
      ". Flight booking not found."), st)

/-- Boolean substring test on character lists, the embedding of
JavaScript `String.prototype.includes`. -/
def subOf (needle : List Char) : List Char → Bool
  | [] => needle.isEmpty
  | c :: t => needle.isPrefixOf (c :: t) || subOf needle t

/-- `str.toLowerCase()`: lower-case each character. -/
def jsToLower (s : String) : String := String.mk (s.data.map Char.toLower)

/-- `hay.includes(pat)`. -/
def jsIncludes (hay pat : String) : Bool := subOf pat.data hay.data

/-- `searchFlightBookings(keyword)`: filter on a case-insensitive
substring match against the airline field, in key order. -/
def searchFlightBookings (keyword : String) (st : Store) : Result (List FlightBooking) :=
  Result.Ok ((Store.values st).filter fun booking =>
    jsIncludes (jsToLower booking.airline) (jsToLower keyword))

/-- `countFlightBookings()`. -/
def countFlightBookings (st : Store) : Result Nat :=
  Result.Ok (Store.len st)

/-- ECMAScript `Array.prototype.slice(start, end)` on integer indices:
negative indices count from the end, and both bounds are clamped to
`[0, length]`. -/
def jsSlice {α : Type} (l : List α) (start stop : Int) : List α :=
  let len : Int := l.length
  let s : Int := if start < 0 then max (len + start) 0 else min start len
  let e : Int := if stop < 0 then max (len + stop) 0 else min stop len
  (l.take e.toNat).drop s.toNat

/-- `getFlightBookingsPaginated(page, pageSize)`. -/
def getFlightBookingsPaginated (page pageSize : Int) (st : Store) :
    Result (List FlightBooking) :=
  let startIdx : Int := (page - 1) * pageSize
  Result.Ok (jsSlice (Store.values st) startIdx (startIdx + pageSize))

/-- `getFlightBookingsByTimeRange(startTime, endTime)`: keep the records
whose interval is fully contained in `[startTime, endTime]`. -/
def getFlightBookingsByTimeRange (startTime endTime : Nat) (st : Store) :
    Result (List FlightBooking) :=
  Result.Ok ((Store.values st).filter fun booking =>
    startTime ≤ booking.departureTime && booking.arrivalTime ≤ endTime)

/-- Keys are pairwise distinct (a consequence of the strictly key-sorted
`StableBTreeMap` representation, and all the removal lemmas need). -/
def Store.KeysDistinct (st : Store) : Prop :=
  List.Pairwise (fun a b : String × FlightBooking => a.1 ≠ b.1) st

instance (st : Store) : Decidable (Store.KeysDistinct st) := by
  unfold Store.KeysDistinct
  exact inferInstance

/-- Every stored record carries its own map key in its `id` field. -/
def Store.IdConsistent (st : Store) : Prop :=
  ∀ e ∈ st, (e : String × FlightBooking).2.id = e.1

instance (st : Store) : Decidable (Store.IdConsistent st) :=
  List.decidableBAll _ st

/-- Store states reachable from the empty map by the three mutating
operations, with arbitrary generated ids, clock readings and payloads. -/
inductive Reachable : Store → Prop
  | empty : Reachable []
  | add (newId : String) (now : Nat) (p : FlightBookingPayload) (st : Store) :
      Reachable st → Reachable (addFlightBooking newId now p st).2
  | update (now : Nat) (i : String) (p : FlightBookingPayload) (st : Store) :
      Reachable st → Reachable (updateFlightBooking now i p st).2
  | delete (i : String) (st : Store) :
      Reachable st → Reachable (deleteFlightBooking i st).2

/-- A payload that passes the validation of the source: all five fields
non-empty / non-zero and `departureTime < arrivalTime`. -/
def ValidPayload (p : FlightBookingPayload) : Prop :=
  p.airline ≠ "" ∧ p.departureAirport ≠ "" ∧ p.arrivalAirport ≠ "" ∧
    p.departureTime ≠ 0 ∧ p.arrivalTime ≠ 0 ∧ p.departureTime < p.arrivalTime

instance (p : FlightBookingPayload) : Decidable (ValidPayload p) := by
  unfold ValidPayload
  exact inferInstance

theorem invalidPayload_eq_false_of_valid {p : FlightBookingPayload}
    (h : ValidPayload p) : invalidPayload p = false := by
  obtain ⟨h1, h2, h3, h4, h5, _⟩ := h
  simp [invalidPayload, h1, h2, h3, h4, h5]

theorem not_time_le_of_valid {p : FlightBookingPayload} (h : ValidPayload p) :
    ¬ p.arrivalTime ≤ p.departureTime := by
  obtain ⟨_, _, _, _, _, h6⟩ := h
  omega

theorem Store.get_insert_self (st : Store) (k : String) (v : FlightBooking) :
    Store.get (Store.insert st k v) k = some v := by
  induction st with
  | nil => simp [Store.insert, Store.get]
  | cons e rest ih =>
    obtain ⟨k0, v0⟩ := e
    by_cases h1 : k < k0
    · simp [Store.insert, h1, Store.get]
    · by_cases h2 : k = k0
      · simp [Store.insert, h1, h2, Store.get]
      · simp [Store.insert, h1, h2, Store.get, ih]

theorem Store.get_insert_ne (st : Store) {k i : String} (v : FlightBooking)
    (h : i ≠ k) : Store.get (Store.insert st k v) i = Store.get st i := by
  induction st with
  | nil => simp [Store.insert, Store.get, h]
  | cons e rest ih =>
    obtain ⟨k0, v0⟩ := e
    by_cases h1 : k < k0
    · simp [Store.insert, h1, Store.get, h]
    · by_cases h2 : k = k0
      · subst h2
        simp [Store.insert, h1, Store.get, h]
      · simp [Store.insert, h1, h2, Store.get, ih]

theorem Store.remove_fst (st : Store) (i : String) :
    (Store.remove st i).1 = Store.get st i := by
  induction st with
  | nil => simp [Store.remove, Store.get]
  | cons e rest ih =>
    obtain ⟨k, v⟩ := e
    by_cases h : i = k
    · simp [Store.remove, Store.get, h]
    · simp [Store.remove, Store.get, h, ih]

theorem Store.get_remove_ne (st : Store) {i j : String} (h : j ≠ i) :
    Store.get (Store.remove st i).2 j = Store.get st j := by
  induction st with
  | nil => simp [Store.remove, Store.get]
  | cons e rest ih =>
    obtain ⟨k, v⟩ := e
    by_cases h1 : i = k
    · subst h1
      simp [Store.remove, Store.get, h]
    · by_cases h2 : j = k
      · simp [Store.remove, Store.get, h1, h2]
      · simp [Store.remove, Store.get, h1, h2, ih]

theorem Store.get_eq_none_of_forall (st : Store) (i : String)
    (h : ∀ e ∈ st, i ≠ (e : String × FlightBooking).1) :
    Store.get st i = none := by
  induction st with
  | nil => rfl
  | cons e rest ih =>
    obtain ⟨k, v⟩ := e
    have hk : i ≠ k := h (k, v) (by simp)
    simp [Store.get, hk]
    exact ih fun e he => h e (by simp [he])

theorem Store.get_remove_self (st : Store) (i : String) :
    st.KeysDistinct → Store.get (Store.remove st i).2 i = none := by
  induction st with
  | nil => intro _; simp [Store.remove, Store.get]
  | cons e rest ih =>
    intro hs
    obtain ⟨k, v⟩ := e
    rw [Store.KeysDistinct, List.pairwise_cons] at hs
    obtain ⟨hne, hrest⟩ := hs
    by_cases h1 : i = k
    · subst h1
      simp [Store.remove]
      exact Store.get_eq_none_of_forall rest _ fun e he => hne e he
    · simp [Store.remove, Store.get, h1]
      exact ih hrest

theorem Store.get_mem (st : Store) {i : String} {v : FlightBooking}
    (h : Store.get st i = some v) : (i, v) ∈ st := by
  induction st with
  | nil => simp [Store.get] at h
  | cons e rest ih =>
    obtain ⟨k, v0⟩ := e
    by_cases h1 : i = k
    · subst h1
      simp [Store.get] at h
      simp [h]
    · simp [Store.get, h1] at h
      exact List.mem_cons_of_mem _ (ih h)

theorem Store.mem_of_mem_remove (st : Store) (i : String)
    {e : String × FlightBooking} (h : e ∈ (Store.remove st i).2) : e ∈ st := by
  induction st with
  | nil => simp [Store.remove] at h
  | cons hd rest ih =>
    obtain ⟨k, v⟩ := hd
    by_cases h1 : i = k
    · simp [Store.remove, h1] at h
      exact List.mem_cons_of_mem _ h
    · simp [Store.remove, h1] at h
      rcases h with h | h
      · simp [h]
      · exact List.mem_cons_of_mem _ (ih h)

theorem Store.mem_insert {st : Store} {k : String} {v : FlightBooking}
    {e : String × FlightBooking} (h : e ∈ Store.insert st k v) :
    e = (k, v) ∨ e ∈ st := by
  induction st with
  | nil =>
    simp [Store.insert] at h
    left
    exact h
  | cons hd rest ih =>
    obtain ⟨k0, v0⟩ := hd
    by_cases h1 : k < k0
    · simp [Store.insert, h1] at h
      rcases h with h | h | h
      · left; simp [h]
      · right; simp [h]
      · right; exact List.mem_cons_of_mem _ h
    · by_cases h2 : k = k0
      · simp [Store.insert, h1, h2] at h
        rcases h with h | h
        · left; simp [h, h2]
        · right; exact List.mem_cons_of_mem _ h
      · simp [Store.insert, h1, h2] at h
        rcases h with h | h
        · right; simp [h]
        · rcases ih h with h3 | h3
          · left; exact h3
          · right; exact List.mem_cons_of_mem _ h3

theorem Store.idConsistent_insert {st : Store} {k : String} {v : FlightBooking}
    (hst : st.IdConsistent) (hv : v.id = k) :
    Store.IdConsistent (Store.insert st k v) := by
  intro e he
  rcases Store.mem_insert he with h | h
  · subst h
    exact hv
  · exact hst e h

theorem idConsistent_addFlightBooking (newId : String) (now : Nat)
    (p : FlightBookingPayload) (st : Store) (h : st.IdConsistent) :
    Store.IdConsistent (addFlightBooking newId now p st).2 := by
  unfold addFlightBooking
  by_cases h1 : invalidPayload p = true
  · simpa [h1] using h
  · by_cases h2 : p.arrivalTime ≤ p.departureTime
    · simpa [h1, h2] using h
    · rw [if_neg h1, if_neg h2]
      exact Store.idConsistent_insert h rfl

theorem idConsistent_updateFlightBooking (now : Nat) (i : String)
    (p : FlightBookingPayload) (st : Store) (h : st.IdConsistent) :
    Store.IdConsistent (updateFlightBooking now i p st).2 := by
  unfold updateFlightBooking
  by_cases h1 : invalidPayload p = true
  · simpa [h1] using h
  · by_cases h2 : p.arrivalTime ≤ p.departureTime
    · simpa [h1, h2] using h
    · cases hget : Store.get st i with
      | some fb =>
        rw [if_neg h1, if_neg h2]
        exact Store.idConsistent_insert h rfl
      | none => simpa [h1, h2, hget] using h

theorem idConsistent_deleteFlightBooking (i : String) (st : Store)
    (h : st.IdConsistent) :
    Store.IdConsistent (deleteFlightBooking i st).2 := by
  unfold deleteFlightBooking
  cases hr : (Store.remove st i).1 with
  | some fb =>
    simp only [hr]
    exact fun e he => h e (Store.mem_of_mem_remove st i he)
  | none => simpa [hr] using h

theorem isPrefixOf_iff_exists (l m : List Char) :
    l.isPrefixOf m = true ↔ ∃ t, m = l ++ t := by
  induction l generalizing m with
  | nil => simp [List.isPrefixOf]
  | cons a l ih =>
    cases m with
    | nil => simp [List.isPrefixOf]
    | cons b m =>
      simp only [List.isPrefixOf, Bool.and_eq_true, beq_iff_eq, ih,
        List.cons_append, List.cons.injEq]
      constructor
      · rintro ⟨rfl, t, rfl⟩
        exact ⟨t, rfl, rfl⟩
      · rintro ⟨t, rfl, rfl⟩
        exact ⟨rfl, t, rfl⟩

theorem subOf_iff_exists (needle hay : List Char) :
    subOf needle hay = true ↔ ∃ pre post, hay = pre ++ needle ++ post := by
  induction hay with
  | nil =>
    simp only [subOf]
    constructor
    · intro h
      have hn : needle = [] := by simpa [List.isEmpty_iff] using h
      subst hn
      exact ⟨[], [], rfl⟩
    · rintro ⟨pre, post, h⟩
      have h2 : pre = [] ∧ needle = [] ∧ post = [] := by
        have := h.symm
        simpa [List.append_eq_nil, and_assoc] using this
      simp [List.isEmpty_iff, h2.2.1]
  | cons c t ih =>
    simp only [subOf, Bool.or_eq_true, isPrefixOf_iff_exists, ih]
    constructor
    · rintro (⟨tl, htl⟩ | ⟨pre, post, hp⟩)
      · exact ⟨[], tl, by simpa using htl⟩
      · exact ⟨c :: pre, post, by simp [hp]⟩
    · rintro ⟨pre, post, h⟩
      cases pre with
      | nil =>
        left
        exact ⟨post, by simpa using h⟩
      | cons p pre =>
        right
        rw [List.cons_append, List.cons_append, List.cons.injEq] at h
        exact ⟨pre, post, h.2⟩

theorem subOf_append_self (n pre post : List Char) :
    subOf n (pre ++ n ++ post) = true := by
  rw [subOf_iff_exists]
  exact ⟨pre, post, rfl⟩

theorem subOf_nil_needle (hay : List Char) : subOf [] hay = true := by
  rw [subOf_iff_exists]
  exact ⟨[], hay, rfl⟩

theorem uuidv4_ne_empty (bytes : List Nat) : uuidv4 bytes ≠ "" := by
  intro h
  have hd := congrArg String.data h
  simp [uuidv4, byteHex, String.data_append] at hd

/-- A concrete valid payload used as witness input. -/
def examplePayload : FlightBookingPayload :=
  { airline := "Delta"
    departureAirport := "JFK"
    arrivalAirport := "SFO"
    departureTime := 100
    arrivalTime := 200 }

def exampleBooking1 : FlightBooking :=
  { id := "k1", airline := "Delta", departureAirport := "JFK",
    arrivalAirport := "SFO", departureTime := 10, arrivalTime := 20,
    createdAt := 1, updatedAt := none }

def exampleBooking2 : FlightBooking :=
  { id := "k2", airline := "united", departureAirport := "LAX",
    arrivalAirport := "ORD", departureTime := 15, arrivalTime := 25,
    createdAt := 1, updatedAt := none }

def exampleBooking3 : FlightBooking :=
  { id := "k3", airline := "DELTA AIR", departureAirport := "SEA",
    arrivalAirport := "BOS", departureTime := 30, arrivalTime := 40,
    createdAt := 1, updatedAt := none }

def exampleBooking4 : FlightBooking :=
  { id := "k4", airline := "aa-lines", departureAirport := "DEN",
    arrivalAirport := "MIA", departureTime := 5, arrivalTime := 50,
    createdAt := 1, updatedAt := none }

def exampleBooking5 : FlightBooking :=
  { id := "k5", airline := "Qantas", departureAirport := "SYD",
    arrivalAirport := "MEL", departureTime := 100, arrivalTime := 200,
    createdAt := 1, updatedAt := none }

/-- A concrete 5-record store with keys `k1 < k2 < k3 < k4 < k5`. -/
def exampleStore : Store :=
  [("k1", exampleBooking1), ("k2", exampleBooking2), ("k3", exampleBooking3),
   ("k4", exampleBooking4), ("k5", exampleBooking5)]

/-- C1: for every payload passing validation (all five fields
non-empty/non-zero, `departureTime < arrivalTime`), `addFlightBooking`
returns Ok with a record copying the payload fields verbatim, a non-empty
freshly generated id, `createdAt` set to the store-observed time and
`updatedAt` absent, and a subsequent `getFlightBooking` on that id
returns the same record. -/
theorem C1_add_then_get (bytes : List Nat) (now : Nat)
    (p : FlightBookingPayload) (st : Store) (hv : ValidPayload p) :
    ∃ fb st2,
      addFlightBooking (uuidv4 bytes) now p st = (Result.Ok fb, st2) ∧
      fb.airline = p.airline ∧
      fb.departureAirport = p.departureAirport ∧
      fb.arrivalAirport = p.arrivalAirport ∧
      fb.departureTime = p.departureTime ∧
      fb.arrivalTime = p.arrivalTime ∧
      fb.id = uuidv4 bytes ∧
      fb.id ≠ "" ∧
      fb.createdAt = now ∧
      fb.updatedAt = none ∧
      getFlightBooking fb.id st2 = Result.Ok fb := by
  have h1 : ¬ invalidPayload p = true := by
    simp [invalidPayload_eq_false_of_valid hv]
  have h2 : ¬ p.arrivalTime ≤ p.departureTime := not_time_le_of_valid hv
  have hadd : addFlightBooking (uuidv4 bytes) now p st =
      (Result.Ok
        { id := uuidv4 bytes, airline := p.airline,
          departureAirport := p.departureAirport,
          arrivalAirport := p.arrivalAirport,
          departureTime := p.departureTime, arrivalTime := p.arrivalTime,
          createdAt := now, updatedAt := none },
       Store.insert st (uuidv4 bytes)
        { id := uuidv4 bytes, airline := p.airline,
          departureAirport := p.departureAirport,
          arrivalAirport := p.arrivalAirport,
          departureTime := p.departureTime, arrivalTime := p.arrivalTime,
          createdAt := now, updatedAt := none }) := by
    unfold addFlightBooking
    rw [if_neg h1, if_neg h2]
  exact ⟨_, _, hadd, rfl, rfl, rfl, rfl, rfl, rfl, uuidv4_ne_empty bytes, rfl,
    rfl, by simp [getFlightBooking, Store.get_insert_self]⟩

theorem C1_add_then_get_witness :
    ∃ fb st2,
      addFlightBooking (uuidv4 [1, 2, 3]) 5 examplePayload [] =
        (Result.Ok fb, st2) ∧
      fb.airline = examplePayload.airline ∧
      fb.departureAirport = examplePayload.departureAirport ∧
      fb.arrivalAirport = examplePayload.arrivalAirport ∧
      fb.departureTime = examplePayload.departureTime ∧
      fb.arrivalTime = examplePayload.arrivalTime ∧
      fb.id = uuidv4 [1, 2, 3] ∧
      fb.id ≠ "" ∧
      fb.createdAt = 5 ∧
      fb.updatedAt = none ∧
      getFlightBooking fb.id st2 = Result.Ok fb :=
  C1_add_then_get [1, 2, 3] 5 examplePayload [] (by decide)

/-- C2: for every id present in the store (of a well-formed, reachable
shape: record ids match their keys) and every valid payload,
`updateFlightBooking` returns Ok with a record keeping the original id
and `createdAt`, replacing the five payload fields, setting `updatedAt`
to the current time; the map entry for that id is overwritten with this
record and no other entry changes. -/
theorem C2_update_existing (now : Nat) (i : String) (p : FlightBookingPayload)
    (st : Store) (fb : FlightBooking) (hc : st.IdConsistent)
    (hget : Store.get st i = some fb) (hv : ValidPayload p) :
    ∃ u st2,
      updateFlightBooking now i p st = (Result.Ok u, st2) ∧
      u.id = fb.id ∧
      u.createdAt = fb.createdAt ∧
      u.airline = p.airline ∧
      u.departureAirport = p.departureAirport ∧
      u.arrivalAirport = p.arrivalAirport ∧
      u.departureTime = p.departureTime ∧
      u.arrivalTime = p.arrivalTime ∧
      u.updatedAt = some now ∧
      Store.get st2 i = some u ∧
      (∀ j, j ≠ i → Store.get st2 j = Store.get st j) := by
  have hid : fb.id = i := hc (i, fb) (Store.get_mem st hget)
  have h1 : ¬ invalidPayload p = true := by
    simp [invalidPayload_eq_false_of_valid hv]
  have h2 : ¬ p.arrivalTime ≤ p.departureTime := not_time_le_of_valid hv
  have hupd : updateFlightBooking now i p st =
      (Result.Ok
        { id := fb.id, airline := p.airline,
          departureAirport := p.departureAirport,
          arrivalAirport := p.arrivalAirport,
          departureTime := p.departureTime, arrivalTime := p.arrivalTime,
          createdAt := fb.createdAt, updatedAt := some now },
       Store.insert st fb.id
        { id := fb.id, airline := p.airline,
          departureAirport := p.departureAirport,
          arrivalAirport := p.arrivalAirport,
          departureTime := p.departureTime, arrivalTime := p.arrivalTime,
          createdAt := fb.createdAt, updatedAt := some now }) := by
    unfold updateFlightBooking
    rw [if_neg h1, if_neg h2, hget]
  refine ⟨_, _, hupd, rfl, rfl, rfl, rfl, rfl, rfl, rfl, rfl, ?_, ?_⟩
  · rw [hid, Store.get_insert_self]
  · intro j hj
    rw [hid]
    exact Store.get_insert_ne st _ hj

theorem C2_update_existing_witness :
    ∃ u st2,
      updateFlightBooking 7 "k1" examplePayload [("k1", exampleBooking1)] =
        (Result.Ok u, st2) ∧
      u.id = exampleBooking1.id ∧
      u.createdAt = exampleBooking1.createdAt ∧
      u.airline = examplePayload.airline ∧
      u.departureAirport = examplePayload.departureAirport ∧
      u.arrivalAirport = examplePayload.arrivalAirport ∧
      u.departureTime = examplePayload.departureTime ∧
      u.arrivalTime = examplePayload.arrivalTime ∧
      u.updatedAt = some 7 ∧
      Store.get st2 "k1" = some u ∧
      (∀ j, j ≠ "k1" →
        Store.get st2 j = Store.get [("k1", exampleBooking1)] j) :=
  C2_update_existing 7 "k1" examplePayload [("k1", exampleBooking1)]
    exampleBooking1 (by decide) (by decide) (by decide)

/-- C10: in every store state reachable by any sequence of add, update
and delete operations, every stored record carries its own map key in
its `id` field. -/
theorem C10_reachable_id_eq_key (st : Store) (h : Reachable st) :
    ∀ k fb, Store.get st k = some fb → fb.id = k := by
  have hc : st.IdConsistent := by
    induction h with
    | empty =>
      intro e he
      simp at he
    | add newId now p st0 _ ih => exact idConsistent_addFlightBooking newId now p st0 ih
    | update now i p st0 _ ih => exact idConsistent_updateFlightBooking now i p st0 ih
    | delete i st0 _ ih => exact idConsistent_deleteFlightBooking i st0 ih
  intro k fb hget
  exact hc (k, fb) (Store.get_mem st hget)

/-- The record stored by the witness run of `addFlightBooking`. -/
def addedWitnessBooking : FlightBooking :=
  { id := "b1", airline := "Delta", departureAirport := "JFK",
    arrivalAirport := "SFO", departureTime := 100, arrivalTime := 200,
    createdAt := 5, updatedAt := none }

theorem C10_reachable_id_eq_key_witness : addedWitnessBooking.id = "b1" :=
  C10_reachable_id_eq_key (addFlightBooking "b1" 5 examplePayload []).2
    (Reachable.add "b1" 5 examplePayload [] Reachable.empty)
    "b1" addedWitnessBooking (by decide)

/-- C5: `searchFlightBookings` returns exactly the stored records whose
airline contains the keyword as a case-insensitive substring, in map key
order (a sublist of the key-ordered value sequence); matching is against
the airline field only, and the empty keyword matches every record. -/
theorem C5_search_spec (keyword : String) (st : Store) :
    ∃ l, searchFlightBookings keyword st = Result.Ok l ∧
      List.Sublist l (Store.values st) ∧
      (∀ b : FlightBooking, b ∈ l ↔ b ∈ Store.values st ∧
        ∃ pre post, (jsToLower b.airline).data =
          pre ++ (jsToLower keyword).data ++ post) ∧
      (keyword = "" → l = Store.values st) := by
  refine ⟨_, rfl, List.filter_sublist _, ?_, ?_⟩
  · intro b
    rw [List.mem_filter]
    constructor
    · rintro ⟨hb, hp⟩
      exact ⟨hb, (subOf_iff_exists _ _).1 hp⟩
    · rintro ⟨hb, hex⟩
      exact ⟨hb, (subOf_iff_exists _ _).2 hex⟩
  · intro hk
    subst hk
    apply List.filter_eq_self.2
    intro b _
    show jsIncludes (jsToLower b.airline) (jsToLower "") = true
    have hempty : (jsToLower "").data = [] := rfl
    unfold jsIncludes
    rw [hempty]
    exact subOf_nil_needle _

/-- C6: `getFlightBookingsByTimeRange` returns exactly the stored records
with `departureTime >= startTime` and `arrivalTime <= endTime`
(fully-contained-interval semantics), in map key order; a record whose
interval is not contained in the range is excluded. -/
theorem C6_time_range_spec (startTime endTime : Nat) (st : Store) :
    ∃ l, getFlightBookingsByTimeRange startTime endTime st = Result.Ok l ∧
      List.Sublist l (Store.values st) ∧
      (∀ b : FlightBooking, b ∈ l ↔ b ∈ Store.values st ∧
        startTime ≤ b.departureTime ∧ b.arrivalTime ≤ endTime) ∧
      (∀ b : FlightBooking, b ∈ Store.values st →
        b.departureTime < startTime ∨ endTime < b.arrivalTime → b ∉ l) := by
  refine ⟨_, rfl, List.filter_sublist _, ?_, ?_⟩
  · intro b
    rw [List.mem_filter]
    simp only [Bool.and_eq_true, decide_eq_true_eq]
  · intro b hb hover hmem
    rw [List.mem_filter] at hmem
    obtain ⟨-, hp⟩ := hmem
    simp only [Bool.and_eq_true, decide_eq_true_eq] at hp
    omega

/-- C7: `addFlightBooking` and `updateFlightBooking` validate in order
with the first failure winning: a falsy payload field yields the invalid
input error regardless of the time range; a payload with all fields
truthy but `departureTime >= arrivalTime` (equality included) yields the
time-range error; valid payloads proceed. -/
theorem C7_validation_order (newId : String) (now : Nat) (i : String)
    (p : FlightBookingPayload) (st : Store) :
    (invalidPayload p = true →
      (addFlightBooking newId now p st).1 =
        Result.Err "Invalid input. Please provide all required fields." ∧
      (updateFlightBooking now i p st).1 =
        Result.Err "Invalid input. Please provide all required fields.") ∧
    (invalidPayload p = false → p.arrivalTime ≤ p.departureTime →
      (addFlightBooking newId now p st).1 =
        Result.Err "Arrival time must be after the departure time." ∧
      (updateFlightBooking now i p st).1 =
        Result.Err "Arrival time must be after the departure time.") ∧
    (ValidPayload p →
      (∃ fb, (addFlightBooking newId now p st).1 = Result.Ok fb) ∧
      ∀ fb, Store.get st i = some fb →
        ∃ u, (updateFlightBooking now i p st).1 = Result.Ok u) := by
  refine ⟨?_, ?_, ?_⟩
  · intro h
    constructor <;> simp [addFlightBooking, updateFlightBooking, h]
  · intro hfalse hle
    constructor <;> simp [addFlightBooking, updateFlightBooking, hfalse, hle]
  · intro hv
    have h1 : ¬ invalidPayload p = true := by
      simp [invalidPayload_eq_false_of_valid hv]
    have h2 : ¬ p.arrivalTime ≤ p.departureTime := not_time_le_of_valid hv
    constructor
    · exact ⟨{ id := newId, airline := p.airline,
               departureAirport := p.departureAirport,
               arrivalAirport := p.arrivalAirport,
               departureTime := p.departureTime, arrivalTime := p.arrivalTime,
               createdAt := now, updatedAt := none },
             by unfold addFlightBooking; rw [if_neg h1, if_neg h2]⟩
    · intro fb hget
      exact ⟨{ id := fb.id, airline := p.airline,
               departureAirport := p.departureAirport,
               arrivalAirport := p.arrivalAirport,
               departureTime := p.departureTime, arrivalTime := p.arrivalTime,
               createdAt := fb.createdAt, updatedAt := some now },
             by unfold updateFlightBooking; rw [if_neg h1, if_neg h2, hget]⟩

/-- A payload with an empty airline and a bad time range: the invalid
input check must win. -/
def emptyAirlinePayload : FlightBookingPayload :=
  { airline := "", departureAirport := "JFK", arrivalAirport := "SFO",
    departureTime := 9, arrivalTime := 3 }

/-- A truthy payload with `departureTime == arrivalTime`. -/
def equalTimesPayload : FlightBookingPayload :=
  { airline := "AA", departureAirport := "JFK", arrivalAirport := "SFO",
    departureTime := 7, arrivalTime := 7 }

theorem C7_validation_order_witness :
    (invalidPayload emptyAirlinePayload = true ∧
      (addFlightBooking "b1" 5 emptyAirlinePayload []).1 =
        Result.Err "Invalid input. Please provide all required fields.") ∧
    (invalidPayload equalTimesPayload = false ∧
      (addFlightBooking "b1" 5 equalTimesPayload []).1 =
        Result.Err "Arrival time must be after the departure time.") ∧
    (∃ fb, (addFlightBooking "b1" 5 examplePayload []).1 = Result.Ok fb) := by
  refine ⟨⟨by decide, ?_⟩, ⟨by decide, ?_⟩, ?_⟩
  · exact ((C7_validation_order "b1" 5 "x" emptyAirlinePayload []).1
      (by decide)).1
  · exact ((C7_validation_order "b1" 5 "x" equalTimesPayload []).2.1
      (by decide) (by decide)).1
  · exact ((C7_validation_order "b1" 5 "x" examplePayload []).2.2
      (by decide)).1

theorem C5_search_spec_witness :
    searchFlightBookings "" exampleStore = Result.Ok (Store.values exampleStore) := by
  obtain ⟨l, h1, -, -, h4⟩ := C5_search_spec "" exampleStore
  rw [h4 rfl] at h1
  exact h1

theorem C6_time_range_spec_witness :
    ∃ l, getFlightBookingsByTimeRange 10 40 exampleStore = Result.Ok l ∧
      exampleBooking1 ∈ l ∧ exampleBooking4 ∉ l := by
  obtain ⟨l, h1, -, h3, h4⟩ := C6_time_range_spec 10 40 exampleStore
  refine ⟨l, h1, ?_, ?_⟩
  · exact (h3 exampleBooking1).2 ⟨by decide, by decide, by decide⟩
  · exact h4 exampleBooking4 (by decide) (Or.inl (by decide))

/-- C8: deleting a present id returns Ok with the removed record, the
entry disappears (a subsequent get reports NotFound), and no other entry
is affected. -/
theorem C8_delete_existing (i : String) (st : Store) (fb : FlightBooking)
    (hs : st.KeysDistinct) (hget : Store.get st i = some fb) :
    ∃ st2,
      deleteFlightBooking i st = (Result.Ok fb, st2) ∧
      getFlightBooking i st2 =
        Result.Err ("A flight booking with id=" ++ i ++ " not found") ∧
      Store.get st2 i = none ∧
      ∀ j, j ≠ i → Store.get st2 j = Store.get st j := by
  have hr1 : (Store.remove st i).1 = some fb := by
    rw [Store.remove_fst, hget]
  have hnone : Store.get (Store.remove st i).2 i = none :=
    Store.get_remove_self st i hs
  refine ⟨(Store.remove st i).2, ?_, ?_, hnone, ?_⟩
  · simp [deleteFlightBooking, hr1]
  · simp [getFlightBooking, hnone]
  · intro j hj
    exact Store.get_remove_ne st hj

theorem C8_delete_existing_witness :
    ∃ st2,
      deleteFlightBooking "k3" exampleStore = (Result.Ok exampleBooking3, st2) ∧
      getFlightBooking "k3" st2 =
        Result.Err ("A flight booking with id=" ++ "k3" ++ " not found") ∧
      Store.get st2 "k3" = none ∧
      ∀ j, j ≠ "k3" → Store.get st2 j = Store.get exampleStore j :=
  C8_delete_existing "k3" exampleStore exampleBooking3 (by decide) (by decide)

/-- C9: get/update/delete on an absent id return the NotFound error whose
message names that id and leave the store unchanged; and whenever
add/update/delete returns any error, the post-state equals the pre-state
(no partial mutation survives a failure). -/
theorem C9_notfound_and_no_mutation (newId : String) (now : Nat) (i : String)
    (p : FlightBookingPayload) (st : Store) :
    (Store.get st i = none →
      getFlightBooking i st =
        Result.Err ("A flight booking with id=" ++ i ++ " not found") ∧
      jsIncludes ("A flight booking with id=" ++ i ++ " not found") i = true ∧
      (ValidPayload p →
        updateFlightBooking now i p st =
          (Result.Err ("Couldn\x27t update a flight booking with id=" ++ i ++
            ". Flight booking not found"), st)) ∧
      jsIncludes ("Couldn\x27t update a flight booking with id=" ++ i ++
        ". Flight booking not found") i = true ∧
      deleteFlightBooking i st =
        (Result.Err ("Couldn\x27t delete a flight booking with id=" ++ i ++
          ". Flight booking not found."), st) ∧
      jsIncludes ("Couldn\x27t delete a flight booking with id=" ++ i ++
        ". Flight booking not found.") i = true) ∧
    (∀ msg st2, addFlightBooking newId now p st = (Result.Err msg, st2) →
      st2 = st) ∧
    (∀ msg st2, updateFlightBooking now i p st = (Result.Err msg, st2) →
      st2 = st) ∧
    (∀ msg st2, deleteFlightBooking i st = (Result.Err msg, st2) →
      st2 = st) := by
  have hincl : ∀ pre post : String, jsIncludes (pre ++ i ++ post) i = true := by
    intro pre post
    unfold jsIncludes
    rw [String.data_append, String.data_append]
    exact subOf_append_self i.data pre.data post.data
  refine ⟨?_, ?_, ?_, ?_⟩
  · intro hget
    refine ⟨by simp [getFlightBooking, hget], hincl _ _, ?_, hincl _ _, ?_,
      hincl _ _⟩
    · intro hv
      have h1 : ¬ invalidPayload p = true := by
        simp [invalidPayload_eq_false_of_valid hv]
      have h2 : ¬ p.arrivalTime ≤ p.departureTime := not_time_le_of_valid hv
      unfold updateFlightBooking
      rw [if_neg h1, if_neg h2, hget]
    · have hr : (Store.remove st i).1 = none := by
        rw [Store.remove_fst, hget]
      simp [deleteFlightBooking, hr]
  · intro msg st2 h
    unfold addFlightBooking at h
    by_cases h1 : invalidPayload p = true
    · rw [if_pos h1] at h
      exact (congrArg Prod.snd h).symm
    · by_cases h2 : p.arrivalTime ≤ p.departureTime
      · rw [if_neg h1, if_pos h2] at h
        exact (congrArg Prod.snd h).symm
      · rw [if_neg h1, if_neg h2] at h
        simp [Prod.mk.injEq] at h
  · intro msg st2 h
    unfold updateFlightBooking at h
    by_cases h1 : invalidPayload p = true
    · rw [if_pos h1] at h
      exact (congrArg Prod.snd h).symm
    · by_cases h2 : p.arrivalTime ≤ p.departureTime
      · rw [if_neg h1, if_pos h2] at h
        exact (congrArg Prod.snd h).symm
      · rw [if_neg h1, if_neg h2] at h
        cases hget : Store.get st i with
        | some fb =>
          rw [hget] at h
          simp [Prod.mk.injEq] at h
        | none =>
          rw [hget] at h
          exact (congrArg Prod.snd h).symm
  · intro msg st2 h
    cases hr : (Store.remove st i).1 with
    | some fb =>
      simp [deleteFlightBooking, hr] at h
    | none =>
      simp [deleteFlightBooking, hr] at h
      exact h.2.symm

theorem C9_notfound_and_no_mutation_witness :
    (getFlightBooking "zz" exampleStore =
      Result.Err ("A flight booking with id=" ++ "zz" ++ " not found")) ∧
    (updateFlightBooking 9 "zz" examplePayload exampleStore =
      (Result.Err ("Couldn\x27t update a flight booking with id=" ++ "zz" ++
        ". Flight booking not found"), exampleStore)) ∧
    (deleteFlightBooking "zz" exampleStore =
      (Result.Err ("Couldn\x27t delete a flight booking with id=" ++ "zz" ++
        ". Flight booking not found."), exampleStore)) ∧
    ((addFlightBooking "b1" 5 emptyAirlinePayload exampleStore).2 =
      exampleStore) := by
  obtain ⟨hnf, hadd, -, -⟩ :=
    C9_notfound_and_no_mutation "b1" 5 "zz" examplePayload exampleStore
  obtain ⟨h1, -, h3, -, h5, -⟩ := hnf (by decide)
  refine ⟨h1, h3 (by decide), h5, ?_⟩
  obtain ⟨-, haddE, -, -⟩ :=
    C9_notfound_and_no_mutation "b1" 5 "zz" emptyAirlinePayload exampleStore
  exact haddE "Invalid input. Please provide all required fields." _
    (by decide)

theorem jsSlice_nonneg {α : Type} (l : List α) (start ps : Int)
    (hstart : 0 ≤ start) (hps : 0 ≤ ps) :
    jsSlice l start (start + ps) = (l.drop start.toNat).take ps.toNat := by
  simp only [jsSlice]
  rw [if_neg (not_lt.2 hstart),
    if_neg (not_lt.2 (by omega : (0 : Int) ≤ start + ps)), List.drop_take]
  by_cases hc1 : start ≤ (l.length : Int)
  · rw [min_eq_left hc1]
    by_cases hc2 : start + ps ≤ (l.length : Int)
    · rw [min_eq_left hc2]
      congr 1
      omega
    · rw [min_eq_right (le_of_not_le hc2)]
      have hlen : (l.drop start.toNat).length = l.length - start.toNat :=
        List.length_drop _ _
      rw [List.take_of_length_le (by rw [hlen]; omega),
        List.take_of_length_le (by rw [hlen]; omega)]
  · have h3 : (l.length : Int) ≤ start := le_of_not_le hc1
    rw [min_eq_right h3, min_eq_right (by omega : (l.length : Int) ≤ start + ps),
      List.drop_eq_nil_of_le (by omega : l.length ≤ start.toNat)]
    simp

theorem jsSlice_empty_of_ge {α : Type} (l : List α) (start stop : Int)
    (h1 : 0 ≤ start) (h2 : (l.length : Int) ≤ start) :
    jsSlice l start stop = [] := by
  simp only [jsSlice]
  rw [if_neg (not_lt.2 h1), min_eq_right h2]
  apply List.drop_eq_nil_of_le
  rw [List.length_take]
  omega

/-- C4: for positive `page` and `pageSize`, `getFlightBookingsPaginated`
returns exactly the slice of the key-ordered record list from
`startIndex = (page - 1) * pageSize` to `startIndex + pageSize`, clipped
to the available length; on the concrete 5-record store, page 1 of size 2
is the first two records, page 3 of size 2 is the fifth record alone, and
page 10 of size 2 is empty. -/
theorem C4_paginated_slice (page pageSize : Int) (st : Store)
    (hp : 1 ≤ page) (hs : 1 ≤ pageSize) :
    getFlightBookingsPaginated page pageSize st =
      Result.Ok (((Store.values st).drop ((page - 1) * pageSize).toNat).take
        pageSize.toNat) ∧
    getFlightBookingsPaginated 1 2 exampleStore =
      Result.Ok [exampleBooking1, exampleBooking2] ∧
    getFlightBookingsPaginated 3 2 exampleStore =
      Result.Ok [exampleBooking5] ∧
    getFlightBookingsPaginated 10 2 exampleStore = Result.Ok [] := by
  refine ⟨?_, by decide, by decide, by decide⟩
  show Result.Ok (jsSlice (Store.values st) ((page - 1) * pageSize)
    ((page - 1) * pageSize + pageSize)) = _
  rw [jsSlice_nonneg (Store.values st) ((page - 1) * pageSize) pageSize
    (mul_nonneg (by omega) (by omega)) (by omega)]

theorem C4_paginated_slice_witness :
    getFlightBookingsPaginated 2 2 exampleStore =
      Result.Ok (((Store.values exampleStore).drop
        (((2 : Int) - 1) * 2).toNat).take (2 : Int).toNat) :=
  (C4_paginated_slice 2 2 exampleStore (by decide) (by decide)).1

/-- C3 counterexample: the claim says `page <= 0` yields an empty list,
but on the concrete 5-record store `page = -1`, `pageSize = 2` returns a
non-empty list (ECMAScript slice counts negative indices from the end:
`slice(-4, -2)` picks the second and third records). -/
theorem C3_counterexample :
    getFlightBookingsPaginated (-1) 2 exampleStore ≠
      Result.Ok ([] : List FlightBooking) := by
  decide

/-- C3 amended: `getFlightBookingsPaginated` never returns an error;
`pageSize = 0` yields the empty list for every page; and whenever
`startIndex = (page - 1) * pageSize` is at or beyond the number of stored
records (for any page and pageSize) it returns the empty list rather
than an error.  For `page ≤ 0` or `pageSize < 0` with an in-range start,
however, ECMAScript slice negative-index semantics apply and the result
can be non-empty: on the 5-record store, page -1 with pageSize 2 yields
the second and third records, and page 1 with pageSize -1 yields the
first four. -/
theorem C3_amended_paginated (page pageSize : Int) (st : Store) :
    (∃ l, getFlightBookingsPaginated page pageSize st = Result.Ok l) ∧
    (pageSize = 0 →
      getFlightBookingsPaginated page pageSize st = Result.Ok []) ∧
    ((Store.len st : Int) ≤ (page - 1) * pageSize →
      getFlightBookingsPaginated page pageSize st = Result.Ok []) ∧
    getFlightBookingsPaginated (-1) 2 exampleStore =
      Result.Ok [exampleBooking2, exampleBooking3] ∧
    getFlightBookingsPaginated 1 (-1) exampleStore =
      Result.Ok [exampleBooking1, exampleBooking2, exampleBooking3,
        exampleBooking4] := by
  refine ⟨⟨_, rfl⟩, ?_, ?_, by decide, by decide⟩
  · intro h
    subst h
    show Result.Ok (jsSlice (Store.values st) ((page - 1) * 0)
      ((page - 1) * 0 + 0)) = _
    rw [mul_zero, jsSlice_nonneg (Store.values st) 0 0 le_rfl le_rfl]
    simp
  · intro h3
    have hlen : ((Store.values st).length : Int) ≤ (page - 1) * pageSize := by
      rw [show (Store.values st).length = st.length by simp [Store.values]]
      exact h3
    have hstart : (0 : Int) ≤ (page - 1) * pageSize :=
      le_trans (by omega : (0 : Int) ≤ ((Store.values st).length : Int)) hlen
    show Result.Ok (jsSlice (Store.values st) ((page - 1) * pageSize)
      ((page - 1) * pageSize + pageSize)) = _
    rw [jsSlice_empty_of_ge (Store.values st) _ _ hstart hlen]

theorem C3_amended_paginated_witness :
    getFlightBookingsPaginated 7 0 exampleStore = Result.Ok [] ∧
    getFlightBookingsPaginated 4 2 exampleStore = Result.Ok [] ∧
    getFlightBookingsPaginated (-2) (-3) exampleStore = Result.Ok [] := by
  refine ⟨?_, ?_, ?_⟩
  · exact (C3_amended_paginated 7 0 exampleStore).2.1 rfl
  · exact (C3_amended_paginated 4 2 exampleStore).2.2.1 (by decide)
  · exact (C3_amended_paginated (-2) (-3) exampleStore).2.2.1 (by decide)
